import Mathlib

/-!
Verification of the CaveatBot Recording Session Engine.

This file is a shallow embedding, in Lean 4, of the session-recording core of
the CaveatBot VS Code extension:

* the session store and action ledger (`src/services/Session.ts`,
  class `SessionTreeProvider`: `startSession`, `addAction`, `addNoteAction`,
  `deleteAction`, `setActiveSession`, `loadSessions`, `handleFileSave`,
  `showDiffDialog`, and — in the drag-and-drop variant of the same class —
  `handleDrop`, `moveAction`, `reorderActions`);
* the terminal correlator (`TerminalMonitor.setupShellIntegration` start/end
  shell-execution handlers);
* the auxiliary action store (`ActionManager.addAction` / `saveActions`).

Modelling conventions:
* JavaScript `Map` objects become association lists with JS `Map.set`
  semantics (update-in-place when the key is present, append otherwise).
* `Date.now()` / `new Date().toISOString()` become explicit parameters.
* External collaborators (the `diff` npm library, `JSON.stringify`, the
  name-generation LLM call, VS Code dialogs) become parameters: the diff
  result, the serialized text, the generated name and the user's dialog
  choice are inputs to the embedded functions.
* Truthiness tests on `string | null` values (`if (!this.currentSession)`)
  are modelled exactly: both `null` and the empty string are falsy.
-/

/-- The `type` field of `ActionData` (`src/models/interfaces.ts`). -/
inductive ActionType where
  | command
  | consequence
  | note
  | codeChange
  | screenshot
deriving DecidableEq, Repr

/-- `ActionData` from `src/models/interfaces.ts`.  `addAction` always fills
`success` (defaulting it to `true`), so it is a plain `Bool` here. -/
structure ActionData where
  type : ActionType
  command : String
  code_change : String
  output : String
  success : Bool
  timestamp : String
deriving DecidableEq, Repr

/-- `SessionData` from `src/models/interfaces.ts`. -/
structure SessionData where
  id : String
  name : String
  description : String
  startTime : String
  actions : List ActionData
  notes : String
deriving DecidableEq, Repr

/-- JS `Map.get`: the value at the first (and, for a JS `Map`, only)
occurrence of the key. -/
def mapGet {α : Type} (m : List (String × α)) (k : String) : Option α :=
  (m.find? (fun p => p.1 == k)).map Prod.snd

/-- JS `Map.set`: overwrite in place when the key is present, append
otherwise. -/
def mapSet {α : Type} (m : List (String × α)) (k : String) (v : α) :
    List (String × α) :=
  if m.any (fun p => p.1 == k) then
    m.map (fun p => if p.1 == k then (k, v) else p)
  else
    m ++ [(k, v)]

/-- JS `Map.delete`. -/
def mapDelete {α : Type} (m : List (String × α)) (k : String) :
    List (String × α) :=
  m.filter (fun p => !(p.1 == k))

/-- JS `Array.prototype.splice(i, 1)`: remove the element at index `i`
(no-op past the end). -/
def spliceRemove {α : Type} : List α → Nat → List α
  | [], _ => []
  | _ :: xs, 0 => xs
  | x :: xs, n + 1 => x :: spliceRemove xs n

/-- JS `Array.prototype.splice(i, 0, a)`: insert `a` at index `i`, clamping
`i` to the array length (JS clamps an out-of-range start index). -/
def spliceInsert {α : Type} : List α → Nat → α → List α
  | xs, 0, a => a :: xs
  | [], _ + 1, a => [a]
  | x :: xs, n + 1, a => x :: spliceInsert xs n a

/-- The mutable state of `SessionTreeProvider` that the engine claims are
about: the `sessions` map, `currentSession` and `isSessionActive`.
(`sessionItems`, the tree-view mirror, carries no ledger state.) -/
structure ProviderState where
  sessions : List (String × SessionData)
  currentSession : Option String
  isSessionActive : Bool
deriving DecidableEq, Repr

/-- The provider state of a fresh `SessionTreeProvider` before
`loadSessions` runs. -/
def initProvider : ProviderState :=
  { sessions := [], currentSession := none, isSessionActive := false }

/-- Truthiness of `this.currentSession` (`string | null`): `null` and the
empty string are falsy in JS. -/
def currentFalsy (p : ProviderState) : Bool :=
  match p.currentSession with
  | none => true
  | some s => s == ""

/-- The session id minted by `startSession`:
`` `session-${Date.now()}` `` — the current time and nothing else. -/
def sessionIdOf (now : Nat) : String :=
  "session-" ++ Nat.repr now

/-- `SessionTreeProvider.startSession`, the branch taken once the user has
entered a (validated non-empty) description.  `name` stands for the result
of the external `generateNameFromDescription` call, `now` for `Date.now()`
and `startTime` for `new Date().toISOString()`. -/
def startSession (p : ProviderState) (now : Nat)
    (description name startTime : String) : ProviderState :=
  let sessionId := sessionIdOf now
  let newSession : SessionData :=
    { id := sessionId
      name := name
      description := description
      startTime := startTime
      actions := []
      notes := description }
  { p with
    sessions := mapSet p.sessions sessionId newSession
    currentSession := some sessionId
    isSessionActive := true }

/-- `SessionTreeProvider.addAction`.  `now` stands for
`new Date().toISOString()`.  The stored record mirrors the source exactly:
`command` is emptied for `codeChange` actions, missing optional arguments
become `''` (via `|| ''`), and a missing `success` becomes `true`. -/
def addAction (p : ProviderState) (type : ActionType) (content : String)
    (success : Option Bool) (codeChange : Option String)
    (output : Option String) (now : String) : ProviderState :=
  if currentFalsy p then p
  else
    match p.currentSession with
    | none => p
    | some cur =>
      match mapGet p.sessions cur with
      | none => p
      | some session =>
        let action : ActionData :=
          { type := type
            command := if type = ActionType.codeChange then "" else content
            code_change := codeChange.getD ""
            output := output.getD ""
            success := success.getD true
            timestamp := now }
        { p with
          sessions :=
            mapSet p.sessions cur
              { session with actions := session.actions ++ [action] } }

/-- `SessionTreeProvider.addNoteAction` once a note text is available.  When
`additionalData.codeChange` is present the source stringifies it and records
a `codeChange` action, otherwise a `note` action.  The branch where
`currentSession` is falsy prompts the user to start a new session; it is
modelled as the user declining (no state change). -/
def addNoteAction (p : ProviderState) (noteText : String)
    (codeChange : Option String) (now : String) : ProviderState :=
  if currentFalsy p then p
  else
    match codeChange with
    | some cc => addAction p ActionType.codeChange noteText none (some cc) none now
    | none => addAction p ActionType.note noteText none none none now

/-- `SessionTreeProvider.setActiveSession`: activate `sessionId` when the
store has it, else do nothing. -/
def setActiveSession (p : ProviderState) (sessionId : String) : ProviderState :=
  if (mapGet p.sessions sessionId).isSome then
    { p with currentSession := some sessionId, isSessionActive := true }
  else p

/-- `SessionTreeProvider.closeCurrentSession`. -/
def closeCurrentSession (p : ProviderState) : ProviderState :=
  match p.currentSession with
  | none => p
  | some _ => { p with currentSession := none, isSessionActive := false }

/-- Outcome reported by `deleteAction` (via `showErrorMessage` /
`showInformationMessage` in the source). -/
inductive DeleteResult where
  | sessionNotFound
  | actionNotFound
  | cancelled
  | deleted
deriving DecidableEq, Repr

/-- `SessionTreeProvider.deleteAction`.  The index is an arbitrary JS
number, so it is an `Int` here; `confirmed` is the user's answer to the
confirmation dialog (which the source only shows after the bounds check
passes). -/
def deleteAction (p : ProviderState) (sessionId : String) (actionIndex : Int)
    (confirmed : Bool) : ProviderState × DeleteResult :=
  match mapGet p.sessions sessionId with
  | none => (p, DeleteResult.sessionNotFound)
  | some session =>
    if actionIndex < 0 ∨ (session.actions.length : Int) ≤ actionIndex then
      (p, DeleteResult.actionNotFound)
    else if !confirmed then (p, DeleteResult.cancelled)
    else
      (( { p with
           sessions :=
             mapSet p.sessions sessionId
               { session with
                 actions := spliceRemove session.actions actionIndex.toNat } }),
       DeleteResult.deleted)

/-- Outcome reported by `moveAction`. -/
inductive MoveResult where
  | sessionNotFound
  | sourceNotFound
  | invalidTarget
  | moved
deriving DecidableEq, Repr

/-- `SessionTreeProvider.moveAction` (drag-and-drop variant of
`Session.ts`).  When source and target are the same session the source
aliases one array: the removal happens first and the insertion lands in the
post-removal array at the unchanged `targetActionIndex`. -/
def moveAction (p : ProviderState) (sourceSessionId : String)
    (sourceActionIndex : Int) (targetSessionId : String)
    (targetActionIndex : Int) : ProviderState × MoveResult :=
  match mapGet p.sessions sourceSessionId, mapGet p.sessions targetSessionId with
  | some sourceSession, some targetSession =>
    if sourceActionIndex < 0 ∨
        (sourceSession.actions.length : Int) ≤ sourceActionIndex then
      (p, MoveResult.sourceNotFound)
    else if targetActionIndex < 0 ∨
        (targetSession.actions.length : Int) < targetActionIndex then
      (p, MoveResult.invalidTarget)
    else
      match sourceSession.actions.get? sourceActionIndex.toNat with
      | none => (p, MoveResult.sourceNotFound)
      | some action =>
        if sourceSessionId == targetSessionId then
          let newActions :=
            spliceInsert (spliceRemove sourceSession.actions sourceActionIndex.toNat)
              targetActionIndex.toNat action
          (( { p with
               sessions :=
                 mapSet p.sessions sourceSessionId
                   { sourceSession with actions := newActions } }),
           MoveResult.moved)
        else
          let newSource :=
            { sourceSession with
              actions := spliceRemove sourceSession.actions sourceActionIndex.toNat }
          let newTarget :=
            { targetSession with
              actions :=
                spliceInsert targetSession.actions targetActionIndex.toNat action }
          (( { p with
               sessions :=
                 mapSet (mapSet p.sessions sourceSessionId newSource)
                   targetSessionId newTarget }),
           MoveResult.moved)
  | _, _ => (p, MoveResult.sessionNotFound)

/-- The per-dragged-action loop body of `SessionTreeProvider.handleDrop`:
move the action, then adjust `targetIndex` for the next dragged action
(decrement when a same-session move removed an earlier element, then
increment to place the next action after this one). -/
def handleDropLoop (p : ProviderState) (dragged : List (String × Int))
    (targetSessionId : String) (targetIndex : Int) : ProviderState :=
  match dragged with
  | [] => p
  | (srcId, srcIdx) :: rest =>
    let p1 := (moveAction p srcId srcIdx targetSessionId targetIndex).1
    let t1 :=
      if srcId == targetSessionId ∧ targetIndex > srcIdx then targetIndex - 1
      else targetIndex
    handleDropLoop p1 rest targetSessionId (t1 + 1)

/-- `SessionTreeProvider.reorderActions`: both indices bounds-checked
against the pre-mutation length, then remove and reinsert. -/
def reorderActions (p : ProviderState) (sessionId : String)
    (oldIndex newIndex : Int) : ProviderState :=
  match mapGet p.sessions sessionId with
  | none => p
  | some session =>
    if oldIndex < 0 ∨ (session.actions.length : Int) ≤ oldIndex ∨
        newIndex < 0 ∨ (session.actions.length : Int) ≤ newIndex then p
    else
      let removed := spliceRemove session.actions oldIndex.toNat
      match session.actions.get? oldIndex.toNat with
      | none => p
      | some action =>
        { p with
          sessions :=
            mapSet p.sessions sessionId
              { session with
                actions := spliceInsert removed newIndex.toNat action } }

/-- JS `String.prototype.endsWith`, expressed over the character sequence
(so that it evaluates inside the kernel). -/
def jsEndsWith (s suffix : String) : Bool :=
  suffix.data.isSuffixOf s.data

/-- One directory entry seen by `SessionTreeProvider.loadSessions`: the file
name and the result of `JSON.parse` on its content (`none` models the
exception thrown for a malformed record, caught and logged by the source). -/
structure FileEntry where
  name : String
  parsed : Option SessionData

/-- `SessionTreeProvider.loadSessions`: scan the directory, and for every
`.json` file parse it independently, inserting a well-formed record under
its `id` and skipping a malformed one (the per-file `try`/`catch`). -/
def loadSessions (files : List FileEntry) : List (String × SessionData) :=
  files.foldl
    (fun m f =>
      if jsEndsWith f.name ".json" then
        match f.parsed with
        | some session => mapSet m session.id session
        | none => m
      else m)
    []

/-- One entry of `TerminalMonitor.pendingCommands`:
`{command, timestamp}`. -/
structure PendingCommand where
  command : String
  timestamp : String
deriving DecidableEq, Repr

/-- The mutable state of `TerminalMonitor` relevant to correlation:
`isTracking` and the `pendingCommands` map keyed by terminal id. -/
structure MonitorState where
  isTracking : Bool
  pendingCommands : List (String × PendingCommand)
deriving DecidableEq, Repr

/-- The stored shape of the `codeChangeAction` object built by
`SessionTreeProvider.handleFileSave` and pushed into `ActionManager`:
`{type: 'code-change', timestamp, file, changes}` with each change a
`{type, value}` pair. -/
structure StoredAction where
  type : String
  timestamp : String
  file : String
  changes : List (String × String)
deriving DecidableEq, Repr

/-- `ActionManager` (in `chatHandler.ts`): the in-memory `actions` array and
the content last written to `.caveatbot/actions.json` by `saveActions`
(modelled for the successful-write path). -/
structure ActionManagerState where
  actions : List StoredAction
  disk : List StoredAction
deriving DecidableEq, Repr

/-- `ActionManager.addAction`: push, then `saveActions` persists the whole
array to `actions.json`. -/
def amAddAction (am : ActionManagerState) (a : StoredAction) :
    ActionManagerState :=
  let acts := am.actions ++ [a]
  { actions := acts, disk := acts }

/-- The combined state the event handlers act on: the terminal monitor, the
session provider and the auxiliary action store. -/
structure SystemState where
  monitor : MonitorState
  provider : ProviderState
  am : ActionManagerState
deriving DecidableEq, Repr

/-- Truthiness of `this.sessionProvider.getCurrentSession()` (returns
`this.currentSession ?? null`). -/
def truthyCurrent (p : ProviderState) : Bool :=
  match p.currentSession with
  | none => false
  | some s => !(s == "")

/-- The `onDidStartTerminalShellExecution` handler of
`TerminalMonitor.setupShellIntegration`: when tracking is on and a session
is active, overwrite the pending entry for this terminal with the command
text and the current timestamp. -/
def onStart (st : SystemState) (terminalId commandText now : String) :
    SystemState :=
  if st.monitor.isTracking && truthyCurrent st.provider then
    { st with
      monitor :=
        { st.monitor with
          pendingCommands :=
            mapSet st.monitor.pendingCommands terminalId
              { command := commandText, timestamp := now } } }
  else st

/-- The `onDidEndTerminalShellExecution` handler of
`TerminalMonitor.setupShellIntegration`.  `exitCode` is
`number | undefined`; `captureResult` is the result of
`captureTerminalOutput` (`none` models the caught exception, degrading the
output to `""`).  The source looks up the pending entry, captures output,
emits the command action only inside `if (output)`, and deletes the pending
entry unconditionally afterwards. -/
def onEnd (st : SystemState) (terminalId : String) (exitCode : Option Int)
    (captureResult : Option String) (now : String) : SystemState :=
  if st.monitor.isTracking && truthyCurrent st.provider then
    match mapGet st.monitor.pendingCommands terminalId with
    | none => st
    | some pendingCommand =>
      let output := captureResult.getD ""
      let success := exitCode == some 0
      let provider1 :=
        if !(output == "") then
          addAction st.provider ActionType.command pendingCommand.command
            (some success) (some pendingCommand.timestamp) (some output) now
        else st.provider
      { st with
        provider := provider1
        monitor :=
          { st.monitor with
            pendingCommands := mapDelete st.monitor.pendingCommands terminalId } }
  else st

/-- One part of the result of the external `diffLines` call (the `diff` npm
library): `{added?, removed?, value}`. -/
structure CodeChangePart where
  added : Bool
  removed : Bool
  value : String
deriving DecidableEq, Repr

/-- The `changes` array built by `handleFileSave` from the diff: keep only
added/removed parts, tagging each with `'addition'` or `'removal'`. -/
def diffChanges (differences : List CodeChangePart) : List (String × String) :=
  (differences.filter (fun part => part.added || part.removed)).map
    (fun part => ((if part.added then "addition" else "removal"), part.value))

/-- The file name computed by `showDiffDialog`:
`filePath.split(/[\\/]/).pop() || filePath`. -/
def fileNameOf (filePath : String) : String :=
  let parts := (filePath.replace "\x5c" "/").splitOn "/"
  match parts.getLast? with
  | some s => if s == "" then filePath else s
  | none => filePath

/-- `SessionTreeProvider.showDiffDialog`: gate on an active session, build
the summary from the first change, and — when the user picks
`'Save to Session'` and a session is still active — record the change as a
`codeChange` note.  `stringify` stands for `JSON.stringify` applied to the
`codeChangeDetails` object (filename, fullPath, changes); `userAccepts` is
the user's dialog choice; `now` is the timestamp of the eventual
`addAction`. -/
def showDiffDialog (st : SystemState) (changes : List (String × String))
    (filePath : String) (userAccepts : Bool)
    (stringify : String → String → List (String × String) → String)
    (now : String) : SystemState :=
  if !st.provider.isSessionActive then st
  else
    match changes with
    | [] => st
    | (changeKind, changeValue) :: _ =>
      let fileName := fileNameOf filePath
      let firstLine := ((changeValue.splitOn "\n").headD "").trim
      let changeType := if changeKind == "addition" then "Added" else "Removed"
      if userAccepts && st.provider.isSessionActive then
        let serialized := stringify fileName filePath changes
        let noteText :=
          "Changed " ++ fileName ++ ": " ++ changeType ++ " \"" ++ firstLine ++ "\""
        { st with
          provider := addNoteAction st.provider noteText (some serialized) now }
      else st

/-- `SessionTreeProvider.handleFileSave`: gate on an active session and
terminal tracking, skip when no cached old content exists, diff (the
`differences` parameter is the external `diffLines` result), and when the
diff has additions or removals store the `code-change` action in the
`ActionManager` and then show the confirmation dialog.  `now` is the stored
action's timestamp, `dialogNow` the timestamp of the dialog's eventual
session action. -/
def handleFileSave (st : SystemState) (filePath : String)
    (oldContent : Option String) (differences : List CodeChangePart)
    (userAccepts : Bool)
    (stringify : String → String → List (String × String) → String)
    (now dialogNow : String) : SystemState :=
  if !(st.provider.isSessionActive && st.monitor.isTracking) then st
  else
    match oldContent with
    | none => st
    | some _ =>
      if differences.any (fun part => part.added || part.removed) then
        let changes := diffChanges differences
        let codeChangeAction : StoredAction :=
          { type := "code-change", timestamp := now, file := filePath
            changes := changes }
        let st1 := { st with am := amAddAction st.am codeChangeAction }
        showDiffDialog st1 changes filePath userAccepts stringify dialogNow
      else st

/-! ### Lemmas about the JS `Map` and `splice` models -/

theorem mapGet_nil {α : Type} (k : String) :
    mapGet ([] : List (String × α)) k = none := rfl

theorem mapGet_cons {α : Type} (a : String × α) (tl : List (String × α))
    (k : String) :
    mapGet (a :: tl) k = if a.1 == k then some a.2 else mapGet tl k := by
  by_cases h : (a.1 == k) = true
  · unfold mapGet
    rw [List.find?_cons_of_pos (p := fun p => p.1 == k) tl h, if_pos h]
    rfl
  · unfold mapGet
    rw [List.find?_cons_of_neg (p := fun p => p.1 == k) tl (by simpa using h),
      if_neg h]

theorem any_key_of_mapGet_some {α : Type} {m : List (String × α)} {k : String}
    {v : α} (h : mapGet m k = some v) :
    m.any (fun p => p.1 == k) = true := by
  induction m with
  | nil => rw [mapGet_nil] at h; cases h
  | cons hd tl ih =>
    rw [mapGet_cons] at h
    rw [List.any_cons]
    by_cases hk : (hd.1 == k) = true
    · rw [hk, Bool.true_or]
    · rw [if_neg hk] at h
      rw [ih h, Bool.or_true]

theorem map_update_id {α : Type} {m : List (String × α)} {k : String} {v : α}
    (h : m.any (fun p => p.1 == k) = false) :
    m.map (fun p => if p.1 == k then (k, v) else p) = m := by
  induction m with
  | nil => rfl
  | cons hd tl ih =>
    rw [List.any_cons, Bool.or_eq_false_iff] at h
    rw [List.map_cons, if_neg (by rw [h.1]; exact Bool.false_ne_true), ih h.2]

theorem mapGet_map_update_self {α : Type} (m : List (String × α)) (k : String)
    (v : α) (h : m.any (fun p => p.1 == k) = true) :
    mapGet (m.map (fun p => if p.1 == k then (k, v) else p)) k = some v := by
  induction m with
  | nil => cases h
  | cons hd tl ih =>
    rw [List.any_cons] at h
    by_cases hk : (hd.1 == k) = true
    · rw [List.map_cons, if_pos hk, mapGet_cons]
      simp
    · rw [List.map_cons, if_neg hk, mapGet_cons, if_neg hk]
      have h1 : (tl.any fun p => p.1 == k) = true := by
        cases hhd : (hd.1 == k) with
        | true => exact absurd hhd hk
        | false => rw [hhd, Bool.false_or] at h; exact h
      exact ih h1

theorem mapGet_append_single_self {α : Type} (m : List (String × α))
    (k : String) (v : α) (h : m.any (fun p => p.1 == k) = false) :
    mapGet (m ++ [(k, v)]) k = some v := by
  induction m with
  | nil =>
    rw [List.nil_append, mapGet_cons]
    simp
  | cons hd tl ih =>
    rw [List.any_cons, Bool.or_eq_false_iff] at h
    rw [List.cons_append, mapGet_cons, if_neg (by rw [h.1]; exact Bool.false_ne_true)]
    exact ih h.2

theorem mapGet_mapSet_self {α : Type} (m : List (String × α)) (k : String)
    (v : α) : mapGet (mapSet m k v) k = some v := by
  unfold mapSet
  by_cases h : m.any (fun p => p.1 == k) = true
  · rw [if_pos h]; exact mapGet_map_update_self m k v h
  · rw [if_neg h]
    exact mapGet_append_single_self m k v (Bool.eq_false_iff.mpr h)

theorem mapGet_map_update_other {α : Type} (m : List (String × α))
    (k k' : String) (v : α) (hne : k' ≠ k) :
    mapGet (m.map (fun p => if p.1 == k then (k, v) else p)) k' =
      mapGet m k' := by
  have hkk' : (k == k') = false := beq_eq_false_iff_ne.mpr fun e => hne e.symm
  induction m with
  | nil => rfl
  | cons hd tl ih =>
    by_cases hk : (hd.1 == k) = true
    · have ha : hd.1 = k := eq_of_beq hk
      rw [List.map_cons, if_pos hk, mapGet_cons, mapGet_cons]
      have h1 : ((k, v).1 == k') = false := hkk'
      have h2 : (hd.1 == k') = false := by rw [ha]; exact hkk'
      rw [h1, h2]
      simpa using ih
    · rw [List.map_cons, if_neg hk, mapGet_cons, mapGet_cons]
      by_cases hk2 : (hd.1 == k') = true
      · rw [if_pos hk2, if_pos hk2]
      · rw [if_neg hk2, if_neg hk2]
        exact ih

theorem mapGet_append_single_other {α : Type} (m : List (String × α))
    (k k' : String) (v : α) (hne : k' ≠ k) :
    mapGet (m ++ [(k, v)]) k' = mapGet m k' := by
  have hkk' : (k == k') = false := beq_eq_false_iff_ne.mpr fun e => hne e.symm
  induction m with
  | nil =>
    rw [List.nil_append, mapGet_cons, mapGet_nil]
    rw [show ((k, v).1 == k') = false from hkk']
    rfl
  | cons hd tl ih =>
    rw [List.cons_append, mapGet_cons, mapGet_cons]
    by_cases hk2 : (hd.1 == k') = true
    · rw [if_pos hk2, if_pos hk2]
    · rw [if_neg hk2, if_neg hk2]
      exact ih

theorem mapGet_mapSet_other {α : Type} (m : List (String × α))
    (k k' : String) (v : α) (hne : k' ≠ k) :
    mapGet (mapSet m k v) k' = mapGet m k' := by
  unfold mapSet
  by_cases h : m.any (fun p => p.1 == k) = true
  · rw [if_pos h]; exact mapGet_map_update_other m k k' v hne
  · rw [if_neg h]; exact mapGet_append_single_other m k k' v hne

theorem mapGet_isSome_mapSet {α : Type} (m : List (String × α))
    (k k' : String) (v : α) (h : (mapGet m k).isSome) :
    (mapGet (mapSet m k' v) k).isSome := by
  by_cases hk : k = k'
  · subst hk; rw [mapGet_mapSet_self]; rfl
  · rw [mapGet_mapSet_other m k' k v hk]; exact h

theorem length_mapSet_of_any {α : Type} (m : List (String × α)) (k : String)
    (v : α) (h : m.any (fun p => p.1 == k) = true) :
    (mapSet m k v).length = m.length := by
  unfold mapSet
  rw [if_pos h, List.length_map]

theorem length_spliceInsert {α : Type} (l : List α) (n : Nat) (a : α) :
    (spliceInsert l n a).length = l.length + 1 := by
  induction l generalizing n with
  | nil => cases n <;> rfl
  | cons x xs ih =>
    cases n with
    | zero => rfl
    | succ n => simp [spliceInsert, ih]

theorem length_spliceRemove {α : Type} (l : List α) (n : Nat)
    (h : n < l.length) : (spliceRemove l n).length = l.length - 1 := by
  induction l generalizing n with
  | nil => simp at h
  | cons x xs ih =>
    cases n with
    | zero => rfl
    | succ n =>
      simp only [List.length_cons, Nat.add_lt_add_iff_right] at h
      cases xs with
      | nil => simp at h
      | cons y ys => simp [spliceRemove, ih _ h]

theorem getq_spliceInsert_self {α : Type} (l : List α) (n : Nat) (a : α)
    (h : n ≤ l.length) : (spliceInsert l n a).get? n = some a := by
  induction l generalizing n with
  | nil =>
    have h0 : n = 0 := Nat.le_zero.mp (by simpa using h)
    subst h0
    rfl
  | cons x xs ih =>
    cases n with
    | zero => rfl
    | succ n =>
      simp only [List.length_cons, Nat.add_le_add_iff_right] at h
      simpa [spliceInsert] using ih n h

/-- Total number of actions across all stored sessions. -/
def totalActions (m : List (String × SessionData)) : Nat :=
  (m.map (fun p => p.2.actions.length)).sum

theorem totalActions_cons (a : String × SessionData)
    (m : List (String × SessionData)) :
    totalActions (a :: m) = a.2.actions.length + totalActions m := by
  unfold totalActions
  rw [List.map_cons, List.sum_cons]

theorem not_any_of_not_mem_keys {α : Type} {m : List (String × α)} {k : String}
    (h : k ∉ m.map Prod.fst) : m.any (fun p => p.1 == k) = false := by
  rw [List.any_eq_false]
  intro p hp hpk
  exact h (List.mem_map.mpr ⟨p, hp, eq_of_beq hpk⟩)

theorem totalActions_mapSet (m : List (String × SessionData)) (k : String)
    (v v₀ : SessionData) (hnd : (m.map Prod.fst).Nodup)
    (hget : mapGet m k = some v₀) :
    totalActions (mapSet m k v) + v₀.actions.length =
      totalActions m + v.actions.length := by
  induction m with
  | nil => rw [mapGet_nil] at hget; cases hget
  | cons hd tl ih =>
    rw [List.map_cons, List.nodup_cons] at hnd
    rw [mapGet_cons] at hget
    by_cases hk : (hd.1 == k) = true
    · have ha : hd.1 = k := eq_of_beq hk
      rw [if_pos hk] at hget
      have hv0 : v₀ = hd.2 := (Option.some_inj.mp hget).symm
      have htl : tl.any (fun p => p.1 == k) = false :=
        not_any_of_not_mem_keys (ha ▸ hnd.1)
      have hany : (hd :: tl).any (fun p => p.1 == k) = true := by
        rw [List.any_cons, hk, Bool.true_or]
      unfold mapSet
      rw [if_pos hany, List.map_cons, if_pos hk, map_update_id htl,
        totalActions_cons, totalActions_cons, hv0]
      have hkv : ((k, v) : String × SessionData).2 = v := rfl
      rw [hkv]
      omega
    · rw [if_neg hk] at hget
      have hanytl : tl.any (fun p => p.1 == k) = true :=
        any_key_of_mapGet_some hget
      have hany : (hd :: tl).any (fun p => p.1 == k) = true := by
        rw [List.any_cons, hanytl, Bool.or_true]
      have hmapset_tl : mapSet tl k v =
          tl.map (fun p => if p.1 == k then (k, v) else p) := by
        unfold mapSet
        rw [if_pos hanytl]
      have ihr := ih hnd.2 hget
      rw [hmapset_tl] at ihr
      unfold mapSet
      rw [if_pos hany, List.map_cons, if_neg hk, totalActions_cons,
        totalActions_cons]
      omega

theorem keys_mapSet_of_any {α : Type} (m : List (String × α)) (k : String)
    (v : α) (h : m.any (fun p => p.1 == k) = true) :
    (mapSet m k v).map Prod.fst = m.map Prod.fst := by
  unfold mapSet
  rw [if_pos h, List.map_map]
  apply List.map_congr_left
  intro p _
  by_cases hk : (p.1 == k) = true
  · simp only [Function.comp_apply, if_pos hk]
    exact (eq_of_beq hk).symm
  · simp only [Function.comp_apply, if_neg hk]

/-- Unfolding of `addAction` on the non-degenerate path: a current session
exists (with a truthy, i.e. non-empty, id) and is present in the store. -/
theorem addAction_eq (p : ProviderState) (type : ActionType) (content : String)
    (success : Option Bool) (codeChange : Option String)
    (output : Option String) (now : String) (cur : String)
    (session : SessionData) (hcur : p.currentSession = some cur)
    (hne : cur ≠ "") (hses : mapGet p.sessions cur = some session) :
    addAction p type content success codeChange output now =
      { p with
        sessions :=
          mapSet p.sessions cur
            { session with
              actions := session.actions ++
                [{ type := type
                   command := if type = ActionType.codeChange then "" else content
                   code_change := codeChange.getD ""
                   output := output.getD ""
                   success := success.getD true
                   timestamp := now }] } } := by
  have hbe : (cur == "") = false := beq_eq_false_iff_ne.mpr hne
  simp [addAction, currentFalsy, hcur, hses, hbe]

/-- `addAction` never touches a session other than the current one. -/
theorem mapGet_addAction_of_ne_current (p : ProviderState) (type : ActionType)
    (content : String) (success : Option Bool) (codeChange : Option String)
    (output : Option String) (now : String) (q : String)
    (hq : p.currentSession ≠ some q) :
    mapGet (addAction p type content success codeChange output now).sessions q =
      mapGet p.sessions q := by
  unfold addAction
  cases hfal : currentFalsy p with
  | true => simp
  | false =>
    cases hcur : p.currentSession with
    | none => simp
    | some cur =>
      cases hses : mapGet p.sessions cur with
      | none => simp [hses]
      | some session =>
        have hne : q ≠ cur := fun e => hq (by rw [hcur, e])
        simpa [hses] using mapGet_mapSet_other p.sessions cur q _ hne

/-! ### Sample data for witnesses -/

/-- A sample stored session with an empty ledger. -/
def sampleSession : SessionData :=
  { id := "session-1", name := "nm", description := "de", startTime := "st"
    actions := [], notes := "de" }

/-- A sample action used to populate ledgers in witnesses. -/
def mkAct (n : String) : ActionData :=
  { type := ActionType.note, command := n, code_change := "", output := ""
    success := true, timestamp := n }

/-- A sample stored session with a three-action ledger. -/
def sampleSession3 : SessionData :=
  { sampleSession with actions := [mkAct "a0", mkAct "a1", mkAct "a2"] }

/-- A provider state whose single session `session-1` is active. -/
def sampleProvider : ProviderState :=
  { sessions := [("session-1", sampleSession)]
    currentSession := some "session-1", isSessionActive := true }

/-! ### Claim theorems -/

/-- C10: a call to `addAction` with type `codeChange` appends a record whose
`command` field is the empty string whatever `content` was passed — the
appended record (right-hand side) does not mention `content` at all; it
keeps only the code-change payload, the output, the defaulted success flag
and the timestamp. -/
theorem addAction_codeChange_discards_content
    (p : ProviderState) (content : String) (success : Option Bool)
    (codeChange output : Option String) (now : String) (cur : String)
    (session : SessionData) (hcur : p.currentSession = some cur)
    (hne : cur ≠ "") (hses : mapGet p.sessions cur = some session) :
    mapGet (addAction p ActionType.codeChange content success codeChange
        output now).sessions cur =
      some { session with
             actions := session.actions ++
               [{ type := ActionType.codeChange, command := ""
                  code_change := codeChange.getD "", output := output.getD ""
                  success := success.getD true, timestamp := now }] } := by
  rw [addAction_eq p ActionType.codeChange content success codeChange output
    now cur session hcur hne hses]
  simp only [mapGet_mapSet_self]
  simp

/-- Witness for C10 at a concrete state: the stored `codeChange` action has
an empty `command` even though a non-empty descriptive text was passed. -/
theorem addAction_codeChange_discards_content_witness :
    mapGet (addAction sampleProvider ActionType.codeChange
        "descriptive text that is discarded" none (some "cc-payload") none
        "T9").sessions "session-1" =
      some { sampleSession with
             actions := [{ type := ActionType.codeChange, command := ""
                           code_change := "cc-payload", output := ""
                           success := true, timestamp := "T9" }] } :=
  addAction_codeChange_discards_content sampleProvider
    "descriptive text that is discarded" none (some "cc-payload") none "T9"
    "session-1" sampleSession rfl (by decide) rfl

/-- C8: `deleteAction` on an existing session with an out-of-range index
reports `actionNotFound` and returns the state unchanged (in particular the
session's actions list keeps its length and elements). -/
theorem deleteAction_out_of_range
    (p : ProviderState) (sessionId : String) (actionIndex : Int)
    (confirmed : Bool) (session : SessionData)
    (hses : mapGet p.sessions sessionId = some session)
    (hout : actionIndex < 0 ∨ (session.actions.length : Int) ≤ actionIndex) :
    deleteAction p sessionId actionIndex confirmed =
      (p, DeleteResult.actionNotFound) := by
  simp only [deleteAction, hses]
  rw [if_pos hout]

/-- Witness for C8: deleting index 99 of a 3-action session reports
`actionNotFound` and leaves the state — hence the 3-action ledger —
untouched. -/
theorem deleteAction_out_of_range_witness :
    deleteAction
        { sessions := [("session-1", sampleSession3)]
          currentSession := some "session-1", isSessionActive := true }
        "session-1" 99 true =
      ({ sessions := [("session-1", sampleSession3)]
         currentSession := some "session-1", isSessionActive := true },
       DeleteResult.actionNotFound) :=
  deleteAction_out_of_range _ "session-1" 99 true sampleSession3 rfl
    (Or.inr (by decide))

/-- C7: `moveAction` from index 2 of session `s1` to index 0 of a distinct
session `s2` (index 2 valid in `s1`) succeeds, shrinks `s1`'s ledger by
exactly one, grows `s2`'s ledger by exactly one, puts the moved action at
position 0 of `s2`, and conserves the total number of actions across all
stored sessions. -/
theorem moveAction_cross_session_conserves
    (p : ProviderState) (s1 s2 : String) (A B : SessionData) (a : ActionData)
    (hnd : (p.sessions.map Prod.fst).Nodup) (hne : s1 ≠ s2)
    (hA : mapGet p.sessions s1 = some A)
    (hB : mapGet p.sessions s2 = some B)
    (ha : A.actions.get? 2 = some a) :
    (moveAction p s1 2 s2 0).2 = MoveResult.moved ∧
    ∃ A' B',
      mapGet (moveAction p s1 2 s2 0).1.sessions s1 = some A' ∧
      mapGet (moveAction p s1 2 s2 0).1.sessions s2 = some B' ∧
      A'.actions.length + 1 = A.actions.length ∧
      B'.actions.length = B.actions.length + 1 ∧
      B'.actions.get? 0 = some a ∧
      totalActions (moveAction p s1 2 s2 0).1.sessions =
        totalActions p.sessions := by
  have h2 : 2 < A.actions.length := by
    by_contra hle
    rw [List.get?_eq_none.mpr (by omega)] at ha
    cases ha
  have hc1 : ((2 : Int) < 0 ∨ ((A.actions.length : Int) ≤ 2)) = False :=
    eq_false (by omega)
  have hc2 : ((0 : Int) < 0 ∨ ((B.actions.length : Int) < 0)) = False :=
    eq_false (by omega)
  have hne' : (s1 == s2) = false := beq_eq_false_iff_ne.mpr hne
  have htn2 : (2 : Int).toNat = 2 := rfl
  have htn0 : (0 : Int).toNat = 0 := rfl
  simp only [moveAction, hA, hB, hc1, hc2, if_false, htn2, htn0, ha, hne',
    Bool.false_eq_true, spliceInsert]
  refine ⟨trivial, { A with actions := spliceRemove A.actions 2 },
    { B with actions := a :: B.actions }, ?_, ?_, ?_, ?_, ?_, ?_⟩
  · rw [mapGet_mapSet_other _ s2 s1 _ hne, mapGet_mapSet_self]
  · rw [mapGet_mapSet_self]
  · simp only [length_spliceRemove A.actions 2 h2]
    omega
  · simp
  · rfl
  · have hany1 : p.sessions.any (fun q => q.1 == s1) = true :=
      any_key_of_mapGet_some hA
    have hB' : mapGet (mapSet p.sessions s1
        { A with actions := spliceRemove A.actions 2 }) s2 = some B := by
      rw [mapGet_mapSet_other _ s1 s2 _ (fun e => hne e.symm)]
      exact hB
    have hnd' : ((mapSet p.sessions s1
        { A with actions := spliceRemove A.actions 2 }).map Prod.fst).Nodup := by
      rw [keys_mapSet_of_any _ _ _ hany1]
      exact hnd
    have t1 := totalActions_mapSet p.sessions s1
      { A with actions := spliceRemove A.actions 2 } A hnd hA
    have t2 := totalActions_mapSet
      (mapSet p.sessions s1 { A with actions := spliceRemove A.actions 2 })
      s2 { B with actions := a :: B.actions } B hnd' hB'
    simp only [length_spliceRemove A.actions 2 h2, List.length_cons] at t1 t2
    omega

/-- A second sample stored session with a one-action ledger. -/
def sampleSessionB : SessionData :=
  { id := "session-2", name := "n2", description := "d2", startTime := "s2"
    actions := [mkAct "b0"], notes := "d2" }

/-- A provider state holding two sessions. -/
def twoSessionProvider : ProviderState :=
  { sessions := [("session-1", sampleSession3), ("session-2", sampleSessionB)]
    currentSession := some "session-1", isSessionActive := true }

/-- Witness for C7 at a concrete two-session state. -/
theorem moveAction_cross_session_conserves_witness :
    (moveAction twoSessionProvider "session-1" 2 "session-2" 0).2 =
        MoveResult.moved ∧
    ∃ A' B',
      mapGet (moveAction twoSessionProvider "session-1" 2 "session-2"
          0).1.sessions "session-1" = some A' ∧
      mapGet (moveAction twoSessionProvider "session-1" 2 "session-2"
          0).1.sessions "session-2" = some B' ∧
      A'.actions.length + 1 = sampleSession3.actions.length ∧
      B'.actions.length = sampleSessionB.actions.length + 1 ∧
      B'.actions.get? 0 = some (mkAct "a2") ∧
      totalActions (moveAction twoSessionProvider "session-1" 2 "session-2"
          0).1.sessions = totalActions twoSessionProvider.sessions :=
  moveAction_cross_session_conserves twoSessionProvider "session-1"
    "session-2" sampleSession3 sampleSessionB (mkAct "a2") (by decide)
    (by decide) (by decide) (by decide) (by decide)

/-- C9: loading the session directory parses each record independently: for
any directory content, every well-formed `.json` record ends up in the
loaded store no matter how many other records are malformed (malformed
records are skipped, never aborting the scan). -/
theorem loadSessions_keeps_wellformed
    (files : List FileEntry) (f : FileEntry) (s : SessionData)
    (hmem : f ∈ files) (hjson : jsEndsWith f.name ".json" = true)
    (hparsed : f.parsed = some s) :
    (mapGet (loadSessions files) s.id).isSome := by
  unfold loadSessions
  have step :
      ∀ (acc : List (String × SessionData)) (rest : List FileEntry),
        (mapGet acc s.id).isSome →
        (mapGet (rest.foldl
          (fun m g =>
            if jsEndsWith g.name ".json" then
              match g.parsed with
              | some session => mapSet m session.id session
              | none => m
            else m) acc) s.id).isSome := by
    intro acc rest
    induction rest generalizing acc with
    | nil => intro h; exact h
    | cons g rest ih =>
      intro h
      rw [List.foldl_cons]
      apply ih
      by_cases hg : jsEndsWith g.name ".json" = true
      · rw [if_pos hg]
        cases hp : g.parsed with
        | none => exact h
        | some session => exact mapGet_isSome_mapSet _ _ _ _ h
      · rw [if_neg hg]
        exact h
  obtain ⟨l₁, l₂, rfl⟩ := List.append_of_mem hmem
  rw [List.foldl_append, List.foldl_cons, hjson, if_pos rfl, hparsed]
  apply step
  rw [mapGet_mapSet_self]
  rfl

/-- Witness for C9: a directory with a malformed record before and after a
well-formed one still loads the well-formed session. -/
theorem loadSessions_keeps_wellformed_witness :
    (mapGet
      (loadSessions
        [{ name := "bad1.json", parsed := none },
         { name := "session-1.json", parsed := some sampleSession },
         { name := "bad2.json", parsed := none }])
      sampleSession.id).isSome :=
  loadSessions_keeps_wellformed
    [{ name := "bad1.json", parsed := none },
     { name := "session-1.json", parsed := some sampleSession },
     { name := "bad2.json", parsed := none }]
    { name := "session-1.json", parsed := some sampleSession } sampleSession
    (by simp) (by decide) rfl

/-- The id of the session currently receiving captured events: the single
`currentSession` field, visible only while `isSessionActive`. -/
def activeOf (p : ProviderState) : Option String :=
  if p.isSessionActive then p.currentSession else none

/-- C5: in every provider state at most one session is active (the state
holds a single `currentSession` field); and `startSession` makes the newly
created session the sole active one while the previously active session
stays in the store unchanged, is never written to by subsequent `addAction`
calls (which target only the new current session), and can be reactivated
by `setActiveSession`. -/
theorem startSession_sole_active_preserves_prior
    (st : ProviderState) (prior : String) (sp : SessionData) (now : Nat)
    (d nm stt : String)
    (hact : activeOf st = some prior)
    (hprior : mapGet st.sessions prior = some sp)
    (hfresh : prior ≠ sessionIdOf now) :
    (∀ (q : ProviderState) (a b : String),
        activeOf q = some a → activeOf q = some b → a = b) ∧
    activeOf (startSession st now d nm stt) = some (sessionIdOf now) ∧
    mapGet (startSession st now d nm stt).sessions (sessionIdOf now) =
      some { id := sessionIdOf now, name := nm, description := d
             startTime := stt, actions := [], notes := d } ∧
    mapGet (startSession st now d nm stt).sessions prior = some sp ∧
    (∀ (type : ActionType) (content : String) (success : Option Bool)
        (codeChange output : Option String) (ts : String),
        mapGet (addAction (startSession st now d nm stt) type content success
          codeChange output ts).sessions prior = some sp) ∧
    activeOf (setActiveSession (startSession st now d nm stt) prior) =
      some prior := by
  have hprior' : mapGet (startSession st now d nm stt).sessions prior =
      some sp := by
    simp only [startSession]
    rw [mapGet_mapSet_other _ _ _ _ hfresh]
    exact hprior
  refine ⟨?_, ?_, ?_, hprior', ?_, ?_⟩
  · intro q a b ha hb
    exact Option.some_inj.mp (ha.symm.trans hb)
  · rfl
  · simp only [startSession]
    exact mapGet_mapSet_self _ _ _
  · intro type content success codeChange output ts
    rw [mapGet_addAction_of_ne_current]
    · exact hprior'
    · simp only [startSession]
      intro h
      exact hfresh (Option.some_inj.mp h).symm
  · unfold setActiveSession
    rw [if_pos (by rw [hprior']; rfl)]
    rfl

/-- Witness for C5: starting a new session at clock reading 42 over a state
whose active session is `session-1`. -/
theorem startSession_sole_active_preserves_prior_witness :
    (∀ (q : ProviderState) (a b : String),
        activeOf q = some a → activeOf q = some b → a = b) ∧
    activeOf (startSession sampleProvider 42 "d" "nm" "stt") =
      some (sessionIdOf 42) ∧
    mapGet (startSession sampleProvider 42 "d" "nm" "stt").sessions
        (sessionIdOf 42) =
      some { id := sessionIdOf 42, name := "nm", description := "d"
             startTime := "stt", actions := [], notes := "d" } ∧
    mapGet (startSession sampleProvider 42 "d" "nm" "stt").sessions
        "session-1" = some sampleSession ∧
    (∀ (type : ActionType) (content : String) (success : Option Bool)
        (codeChange output : Option String) (ts : String),
        mapGet (addAction (startSession sampleProvider 42 "d" "nm" "stt") type
          content success codeChange output ts).sessions "session-1" =
          some sampleSession) ∧
    activeOf (setActiveSession (startSession sampleProvider 42 "d" "nm" "stt")
        "session-1") = some "session-1" :=
  startSession_sole_active_preserves_prior sampleProvider "session-1"
    sampleSession 42 "d" "nm" "stt" rfl rfl (by decide)

/-- C4: from a fresh correlator (no pending commands), with tracking
enabled and a session active, `onStart("t1","ls")` followed by
`onEnd("t1", exitCode 0, captured output "a b")` appends exactly one
`command` action — content `"ls"`, success `true`, output `"a b"` — to the
active session, and removes the pending entry for `"t1"`. -/
theorem correlator_pairs_start_end
    (st : SystemState) (sid : String) (session : SessionData)
    (ts1 ts2 : String)
    (htrack : st.monitor.isTracking = true)
    (hfresh : st.monitor.pendingCommands = [])
    (hcur : st.provider.currentSession = some sid) (hne : sid ≠ "")
    (hses : mapGet st.provider.sessions sid = some session) :
    mapGet (onEnd (onStart st "t1" "ls" ts1) "t1" (some 0) (some "a b")
        ts2).provider.sessions sid =
      some { session with
             actions := session.actions ++
               [{ type := ActionType.command, command := "ls"
                  code_change := ts1, output := "a b", success := true
                  timestamp := ts2 }] } ∧
    mapGet (onEnd (onStart st "t1" "ls" ts1) "t1" (some 0) (some "a b")
        ts2).monitor.pendingCommands "t1" = none := by
  have hbe : (sid == "") = false := beq_eq_false_iff_ne.mpr hne
  have htc : truthyCurrent st.provider = true := by
    simp [truthyCurrent, hcur, hbe]
  have hstart : onStart st "t1" "ls" ts1 =
      { st with
        monitor :=
          { st.monitor with
            pendingCommands := [("t1", { command := "ls", timestamp := ts1 })] } } := by
    simp [onStart, htrack, htc, hfresh, mapSet]
  rw [hstart]
  have hadd := addAction_eq st.provider ActionType.command "ls" (some true)
    (some ts1) (some "a b") ts2 sid session hcur hne hses
  simp only [onEnd, htrack, htc, Bool.and_self, if_true, mapGet_cons,
    mapDelete]
  simp only [show (("t1" : String) == "t1") = true from by decide]
  simp only [Option.getD_some]
  simp only [show (("a b" : String) == "") = false from by decide,
    Bool.not_false, if_true]
  simp only [show ((some (0 : Int) == some 0) : Bool) = true from by decide]
  rw [hadd]
  constructor
  · rw [mapGet_mapSet_self]
    simp
  · simp [mapGet]

/-- A fresh action-manager store. -/
def emptyAM : ActionManagerState := { actions := [], disk := [] }

/-- A combined state: tracking on, no pending commands, `session-1` active
with an empty ledger, empty auxiliary store. -/
def sampleSystem : SystemState :=
  { monitor := { isTracking := true, pendingCommands := [] }
    provider := sampleProvider
    am := emptyAM }

/-- Witness for C4 at the concrete fresh state. -/
theorem correlator_pairs_start_end_witness :
    mapGet (onEnd (onStart sampleSystem "t1" "ls" "T1") "t1" (some 0)
        (some "a b") "T2").provider.sessions "session-1" =
      some { sampleSession with
             actions := [{ type := ActionType.command, command := "ls"
                           code_change := "T1", output := "a b"
                           success := true, timestamp := "T2" }] } ∧
    mapGet (onEnd (onStart sampleSystem "t1" "ls" "T1") "t1" (some 0)
        (some "a b") "T2").monitor.pendingCommands "t1" = none :=
  correlator_pairs_start_end sampleSystem "session-1" sampleSession "T1" "T2"
    rfl rfl rfl (by decide) rfl

/-- C1 (failing input): with tracking enabled, a session active and a fresh
correlator, `onStart("t1","ls")` followed by `onEnd("t1", exit code 0)` with
a failed output capture (degrading the output to the empty string) emits
no command action at all — the session ledger is unchanged — while the
pending entry for `"t1"` is still removed, losing the pairing.  The
`if (output)` gate in the end handler suppresses the emission that the
specification says must always happen. -/
theorem correlator_empty_output_drops_action :
    mapGet (onEnd (onStart sampleSystem "t1" "ls" "T1") "t1" (some 0) none
        "T2").provider.sessions "session-1" = some sampleSession ∧
    sampleSession.actions = [] ∧
    mapGet (onEnd (onStart sampleSystem "t1" "ls" "T1") "t1" (some 0) none
        "T2").monitor.pendingCommands "t1" = none := by decide

/-- C6 (counterexample): two `startSession` calls at the same clock reading
assign the same id (`session-1000` both times): starting from an empty
store, after the two calls only one session exists, holding the second
call's data — the first session was overwritten, so the ids were not
distinct. -/
theorem startSession_same_clock_collides_counterexample :
    (startSession initProvider 1000 "d1" "n1" "s1").currentSession =
      some "session-1000" ∧
    (startSession (startSession initProvider 1000 "d1" "n1" "s1") 1000 "d2"
        "n2" "s2").currentSession = some "session-1000" ∧
    (startSession (startSession initProvider 1000 "d1" "n1" "s1") 1000 "d2"
        "n2" "s2").sessions.length = 1 ∧
    mapGet (startSession (startSession initProvider 1000 "d1" "n1" "s1") 1000
        "d2" "n2" "s2").sessions "session-1000" =
      some { id := "session-1000", name := "n2", description := "d2"
             startTime := "s2", actions := [], notes := "d2" } := by decide

/-- C6 (amended): the session id is derived from the current time only
(`session-` followed by the millisecond reading), with no uniqueness
suffix: a second session created at the same clock reading is assigned the
identical id and replaces the first in the store — the session count does
not grow. -/
theorem startSession_id_time_only (p : ProviderState) (now : Nat)
    (d1 n1 s1 d2 n2 s2 : String) :
    (startSession p now d1 n1 s1).currentSession = some (sessionIdOf now) ∧
    (startSession (startSession p now d1 n1 s1) now d2 n2 s2).currentSession =
      some (sessionIdOf now) ∧
    mapGet (startSession (startSession p now d1 n1 s1) now d2 n2
        s2).sessions (sessionIdOf now) =
      some { id := sessionIdOf now, name := n2, description := d2
             startTime := s2, actions := [], notes := d2 } ∧
    (startSession (startSession p now d1 n1 s1) now d2 n2 s2).sessions.length =
      (startSession p now d1 n1 s1).sessions.length := by
  refine ⟨rfl, rfl, ?_, ?_⟩
  · simp only [startSession]
    exact mapGet_mapSet_self _ _ _
  · simp only [startSession]
    apply length_mapSet_of_any
    apply any_key_of_mapGet_some
      (v := { id := sessionIdOf now, name := n1, description := d1,
              startTime := s1, actions := [], notes := d1 })
    exact mapGet_mapSet_self _ _ _

/-- A provider state with one four-action session, used for the
drag-and-drop claims. -/
def dragProvider : ProviderState :=
  { sessions :=
      [("session-1",
        { sampleSession with
          actions := [mkAct "a0", mkAct "a1", mkAct "a2", mkAct "a3"] })]
    currentSession := some "session-1", isSessionActive := true }

/-- C2 (counterexample): dropping the action at index 0 onto index 2 of the
same four-action session — `handleDrop` with one dragged action — produces
`[a1, a2, a0, a3]`: the moved action lands at final index 2, not at the
position the decremented interpretation (insert at `destIndex - 1` of the
post-removal list) would give, which is `[a1, a0, a2, a3]`.  The move does
not decrement the destination index. -/
theorem handleDrop_no_decrement_counterexample :
    (mapGet (handleDropLoop dragProvider [("session-1", 0)] "session-1"
        2).sessions "session-1").map (fun s => s.actions) =
      some [mkAct "a1", mkAct "a2", mkAct "a0", mkAct "a3"] ∧
    spliceInsert
        (spliceRemove [mkAct "a0", mkAct "a1", mkAct "a2", mkAct "a3"] 0)
        (2 - 1) (mkAct "a0") =
      [mkAct "a1", mkAct "a0", mkAct "a2", mkAct "a3"] ∧
    ([mkAct "a1", mkAct "a2", mkAct "a0", mkAct "a3"] : List ActionData) ≠
      [mkAct "a1", mkAct "a0", mkAct "a2", mkAct "a3"] := by decide

/-- C2 (amended): for a same-session move whose destination index is
numerically after the source index (and in range), `moveAction` inserts the
action at the unchanged destination index of the post-removal list, so the
moved action lands at final index `dst` — one past where the decremented
interpretation would put it; the decrement in `handleDrop` only adjusts the
insertion point for subsequent dragged actions. -/
theorem moveAction_same_session_forward
    (p : ProviderState) (sid : String) (session : SessionData)
    (a : ActionData) (src dst : Nat)
    (hses : mapGet p.sessions sid = some session)
    (hsd : src < dst) (hdl : dst < session.actions.length)
    (ha : session.actions.get? src = some a) :
    (moveAction p sid (src : Int) sid (dst : Int)).2 = MoveResult.moved ∧
    mapGet (moveAction p sid (src : Int) sid (dst : Int)).1.sessions sid =
      some { session with
             actions := spliceInsert (spliceRemove session.actions src) dst a } ∧
    (spliceInsert (spliceRemove session.actions src) dst a).get? dst =
      some a := by
  have hc1 : (((src : Int)) < 0 ∨
      ((session.actions.length : Int) ≤ (src : Int))) = False :=
    eq_false (by omega)
  have hc2 : (((dst : Int)) < 0 ∨
      ((session.actions.length : Int) < (dst : Int))) = False :=
    eq_false (by omega)
  have htn1 : ((src : Int)).toNat = src := Int.toNat_natCast src
  have htn2 : ((dst : Int)).toNat = dst := Int.toNat_natCast dst
  have hself : (sid == sid) = true := beq_self_eq_true sid
  simp only [moveAction, hses, hc1, hc2, if_false, htn1, htn2, ha, hself,
    if_true]
  refine ⟨trivial, ?_, ?_⟩
  · rw [mapGet_mapSet_self]
  · apply getq_spliceInsert_self
    rw [length_spliceRemove session.actions src (by omega)]
    omega

/-- Witness for the amended C2 at the concrete four-action session:
`moveAction` from index 0 to index 2 lands the moved action at final
index 2. -/
theorem moveAction_same_session_forward_witness :
    (moveAction dragProvider "session-1" ((0 : Nat) : Int) "session-1"
        ((2 : Nat) : Int)).2 = MoveResult.moved ∧
    mapGet (moveAction dragProvider "session-1" ((0 : Nat) : Int) "session-1"
        ((2 : Nat) : Int)).1.sessions "session-1" =
      some { sampleSession with
             actions :=
               spliceInsert
                 (spliceRemove
                   [mkAct "a0", mkAct "a1", mkAct "a2", mkAct "a3"] 0)
                 2 (mkAct "a0") } ∧
    (spliceInsert
        (spliceRemove [mkAct "a0", mkAct "a1", mkAct "a2", mkAct "a3"] 0) 2
        (mkAct "a0")).get? 2 = some (mkAct "a0") :=
  moveAction_same_session_forward dragProvider "session-1"
    { sampleSession with
      actions := [mkAct "a0", mkAct "a1", mkAct "a2", mkAct "a3"] }
    (mkAct "a0") 0 2 (by decide) (by decide) (by decide) (by decide)

/-- A one-part diff with a single added line. -/
def diffOneAdd : List CodeChangePart :=
  [{ added := true, removed := false, value := "b" }]

/-- C3 (counterexample): at a concrete state with an active session and
tracking enabled, a save whose diff has one addition, with the user
*declining* the confirmation dialog, still writes the change to the
`ActionManager` store on disk (`.caveatbot/actions.json`): the store grows
from empty to one `code-change` record, refuting "no store on disk receives
the change". -/
theorem fileSave_decline_still_persists_counterexample :
    (handleFileSave sampleSystem "/w/f.ts" (some "a") diffOneAdd false
        (fun _ _ _ => "") "T1" "T2").am.disk =
      [{ type := "code-change", timestamp := "T1", file := "/w/f.ts"
         changes := [("addition", "b")] }] ∧
    sampleSystem.am.disk = [] := by decide

/-- C3 (amended): when the diff of a save has additions or removals, with
tracking enabled and a session active, declining the confirmation dialog
leaves the session provider completely unchanged — no `codeChange` action
is recorded in any session — but the change has already been appended to
the `ActionManager` store and persisted to its `actions.json` file before
the dialog: declining does not undo that write. -/
theorem fileSave_decline_leaves_sessions_but_persists
    (st : SystemState) (filePath oc : String)
    (differences : List CodeChangePart)
    (strfy : String → String → List (String × String) → String)
    (now dialogNow : String)
    (hact : st.provider.isSessionActive = true)
    (htrack : st.monitor.isTracking = true)
    (hdiff : differences.any (fun part => part.added || part.removed) = true) :
    (handleFileSave st filePath (some oc) differences false strfy now
        dialogNow).provider = st.provider ∧
    (handleFileSave st filePath (some oc) differences false strfy now
        dialogNow).am.actions =
      st.am.actions ++
        [{ type := "code-change", timestamp := now, file := filePath
           changes := diffChanges differences }] ∧
    (handleFileSave st filePath (some oc) differences false strfy now
        dialogNow).am.disk =
      st.am.actions ++
        [{ type := "code-change", timestamp := now, file := filePath
           changes := diffChanges differences }] := by
  simp only [handleFileSave, hact, htrack, Bool.and_self, Bool.not_true,
    Bool.false_eq_true, if_false, hdiff, if_true]
  cases hch : diffChanges differences with
  | nil => simp [showDiffDialog, hact, amAddAction, hch]
  | cons c rest =>
    simp [showDiffDialog, hact, amAddAction, hch]

/-- Witness for the amended C3 at the concrete state. -/
theorem fileSave_decline_leaves_sessions_but_persists_witness :
    (handleFileSave sampleSystem "/w/f.ts" (some "a") diffOneAdd false
        (fun _ _ _ => "") "T1" "T2").provider = sampleSystem.provider ∧
    (handleFileSave sampleSystem "/w/f.ts" (some "a") diffOneAdd false
        (fun _ _ _ => "") "T1" "T2").am.actions =
      sampleSystem.am.actions ++
        [{ type := "code-change", timestamp := "T1", file := "/w/f.ts"
           changes := diffChanges diffOneAdd }] ∧
    (handleFileSave sampleSystem "/w/f.ts" (some "a") diffOneAdd false
        (fun _ _ _ => "") "T1" "T2").am.disk =
      sampleSystem.am.actions ++
        [{ type := "code-change", timestamp := "T1", file := "/w/f.ts"
           changes := diffChanges diffOneAdd }] :=
  fileSave_decline_leaves_sessions_but_persists sampleSystem "/w/f.ts" "a"
    diffOneAdd (fun _ _ _ => "") "T1" "T2" rfl rfl (by decide)
